import Mathlib

/-!
Shallow embedding of the `event_sync` crate (a tick-based virtual clock).

The authoritative implementation is `src/lib.rs` together with `src/errors.rs`:
the clock state is `InnerEventSync { start_time: SystemTime, tickrate: u32,
paused_time: Option<SystemTime> }`.  A second, newer revision of the state
machine lives in `src/inner.rs` (a tagged `Running(Instant) / Paused(Duration)`
enum); it is embedded separately in the `StateEnum` namespace and is used only
for the serialization claim, whose sources cite both files.

Modelling conventions:
  - `SystemTime` and `Instant` readings are `Int`, in nanoseconds since the
    Unix epoch (a `SystemTime` may lie before the epoch, hence `Int`).
  - `Duration` values are `Nat`, in nanoseconds.
  - The external reading `SystemTime::now()` is passed explicitly as a `now`
    parameter to every operation that consults the wall clock.
  - Machine-integer overflow is modelled explicitly: `u32` and `u64`
    multiplications and additions wrap modulo `2^32` / `2^64` (the release-mode
    semantics), and the `as u64` narrowing of `Duration::as_millis` truncates
    modulo `2^64`.
  - Operations that can panic (`SystemTime - Duration` out of range,
    `Duration - Duration` underflow) return `Option` / a `panicked` outcome.
  - A blocking wait is modelled by the duration it sleeps (`WaitResult.sleep`),
    which is the only observable effect of a successful wait.
-/

/-- The error enum of `src/errors.rs` (`TimeError`).  `PartialEq` on the Rust
type compares discriminants only, so the wrapped `SystemTimeError` payload is
dropped here. -/
inductive TimeError where
  | systemTimeError
  | thatTimeHasAlreadyHappened
  | eventSyncPaused
deriving DecidableEq

deriving instance DecidableEq for Except

/-- Lower bound of the representable `SystemTime` range, in nanoseconds: on
Linux a `SystemTime` is a `timespec` whose seconds field is an `i64`, so the
earliest representable time is `i64::MIN` seconds.  `SystemTime - Duration`
panics (via `checked_sub(..).expect(..)`) when the result would fall below this
bound. -/
def sysTimeMin : Int := -(9223372036854775808 * 1000000000)

/-- Rust `SystemTime - Duration` (`checked_sub` + panic): `none` models the
panic when the result is not representable. -/
def systemTimeSub (t : Int) (d : Nat) : Option Int :=
  if sysTimeMin ≤ t - (d : Int) then some (t - (d : Int)) else none

/-- The largest value of Rust `Duration`: `u64::MAX` seconds plus 999,999,999
nanoseconds. -/
def durationMax : Nat := (2 ^ 64 - 1) * 1000000000 + 999999999

/-- The clock state of `src/lib.rs` (`struct InnerEventSync`, lines 88-94).
`start_time` and the pause timestamp are absolute `SystemTime` readings in
nanoseconds; `tickrate` is the `u32` tick duration in milliseconds. -/
structure InnerEventSync where
  start_time : Int
  tickrate : Nat
  paused_time : Option Int
deriving DecidableEq

/-- lib.rs `InnerEventSync::new` (lines 124-130): clamps the tickrate to at
least 1 and, when starting paused, stores a fresh `SystemTime::now()` reading
(`now`) as the pause timestamp. -/
def InnerEventSync.new (tickrate : Nat) (start_time : Int) (is_paused : Bool)
    (now : Int) : InnerEventSync :=
  { start_time := start_time
    tickrate := max tickrate 1
    paused_time := if is_paused then some now else none }

/-- lib.rs `InnerEventSync::from_starting_time` (lines 107-111): subtracts the
given starting duration from `SystemTime::now()` (which can panic, hence
`Option`) and builds a running clock. -/
def InnerEventSync.from_starting_time (tickrate : Nat) (starting_time : Nat)
    (now : Int) : Option InnerEventSync :=
  (systemTimeSub now starting_time).map
    (fun st => InnerEventSync.new tickrate st false now)

/-- lib.rs `EventSync::new` (line 196): a running clock whose start time is the
current `SystemTime::now()` reading. -/
def EventSync.new (tickrate : Nat) (now : Int) : InnerEventSync :=
  InnerEventSync.new tickrate now false now

/-- lib.rs `EventSync::new_paused` (line 213): like `new` but starting paused. -/
def EventSync.new_paused (tickrate : Nat) (now : Int) : InnerEventSync :=
  InnerEventSync.new tickrate now true now

/-- lib.rs `EventSync::from_starting_time` (lines 249-257):
`SystemTime::now() - starting_time` can panic when the result is not
representable, hence `Option`. -/
def EventSync.from_starting_time (tickrate : Nat) (starting_time : Nat)
    (start_paused : Bool) (now : Int) : Option InnerEventSync :=
  (systemTimeSub now starting_time).map
    (fun st => InnerEventSync.new tickrate st start_paused now)

/-- lib.rs `EventSync::from_starting_tick` (lines 291-300): the starting offset
in milliseconds is `starting_tick * tickrate_in_milliseconds`, a `u32 * u32`
multiplication that wraps modulo `2^32` (release semantics) and uses the raw
input tickrate, not the clamped one.  The wrapped millisecond count is then
widened to `u64` and subtracted from `SystemTime::now()`. -/
def EventSync.from_starting_tick (tickrate starting_tick : Nat)
    (start_paused : Bool) (now : Int) : Option InnerEventSync :=
  let ms := (starting_tick * tickrate) % 2 ^ 32
  (systemTimeSub now (ms * 1000000)).map
    (fun st => InnerEventSync.new tickrate st start_paused now)

/-- lib.rs `EventSync::is_paused` (lines 437-439). -/
def EventSync.is_paused (s : InnerEventSync) : Bool :=
  s.paused_time.isSome

/-- lib.rs `EventSync::get_tickrate` (lines 538-540). -/
def EventSync.get_tickrate (s : InnerEventSync) : Nat :=
  s.tickrate

/-- lib.rs `EventSync::time_since_started` (lines 658-662): errors when paused
(`err_if_paused`, lines 446-452) and when `start_time.elapsed()` fails because
the system clock now reads earlier than `start_time`; otherwise the elapsed
duration in nanoseconds. -/
def EventSync.time_since_started (s : InnerEventSync) (now : Int) :
    Except TimeError Nat :=
  if s.paused_time.isSome then .error .eventSyncPaused
  else if now < s.start_time then .error .systemTimeError
  else .ok (now - s.start_time).toNat

/-- lib.rs `EventSync::ticks_since_started` (lines 683-689):
`start_time.elapsed()?.as_millis() as u64 / tickrate as u64`.  The `as u64`
narrowing of the `u128` millisecond count truncates modulo `2^64`. -/
def EventSync.ticks_since_started (s : InnerEventSync) (now : Int) :
    Except TimeError Nat :=
  if s.paused_time.isSome then .error .eventSyncPaused
  else if now < s.start_time then .error .systemTimeError
  else .ok ((((now - s.start_time).toNat / 1000000) % 2 ^ 64) / s.tickrate)

/-- lib.rs `EventSync::time_since_last_tick` (lines 710-716): the elapsed
nanoseconds modulo one tick (`tickrate * 1_000_000` ns).  The `as u64` cast of
the remainder is lossless because the modulus is below `2^32 * 10^6 < 2^64`. -/
def EventSync.time_since_last_tick (s : InnerEventSync) (now : Int) :
    Except TimeError Nat :=
  if s.paused_time.isSome then .error .eventSyncPaused
  else
    match EventSync.time_since_started s now with
    | .error e => .error e
    | .ok ns => .ok (ns % (s.tickrate * 1000000))

/-- lib.rs `EventSync::time_until_next_tick` (lines 737-744):
`Duration::from_millis(tickrate).saturating_sub(time_since_last_tick)`, which
is truncated subtraction on `Nat`. -/
def EventSync.time_until_next_tick (s : InnerEventSync) (now : Int) :
    Except TimeError Nat :=
  if s.paused_time.isSome then .error .eventSyncPaused
  else
    match EventSync.time_since_last_tick s now with
    | .error e => .error e
    | .ok t => .ok (s.tickrate * 1000000 - t)

/-- Outcome of a blocking wait: a successful call sleeps for the given number
of nanoseconds and returns `Ok(())`; `err` is an early `Err` return; `panicked`
models the `Duration - Duration` underflow panic inside `wait_until`. -/
inductive WaitResult where
  | sleep (ns : Nat)
  | err (e : TimeError)
  | panicked
deriving DecidableEq

/-- lib.rs `EventSync::wait_until` (lines 565-578): after `err_if_paused` and
`ticks_since_started`, the sleep duration is
`Duration::from_millis(tick_to_wait_for * tickrate as u64) - time_since_started()`.
The `u64` multiplication wraps modulo `2^64`, and the `Duration` subtraction
panics on underflow. -/
def EventSync.wait_until (s : InnerEventSync) (now : Int)
    (tick_to_wait_for : Nat) : WaitResult :=
  if s.paused_time.isSome then .err .eventSyncPaused
  else
    match EventSync.ticks_since_started s now with
    | .error e => .err e
    | .ok ticks =>
      if ticks < tick_to_wait_for then
        let totalNs := ((tick_to_wait_for * s.tickrate) % 2 ^ 64) * 1000000
        match EventSync.time_since_started s now with
        | .error e => .err e
        | .ok elapsed =>
          if elapsed ≤ totalNs then .sleep (totalNs - elapsed) else .panicked
      else .err .thatTimeHasAlreadyHappened

/-- lib.rs `EventSync::wait_for_x_ticks` (lines 628-634): `err_if_paused`, then
`wait_until(ticks_since_started()? + ticks_to_wait as u64)`; the `u64` addition
wraps modulo `2^64`. -/
def EventSync.wait_for_x_ticks (s : InnerEventSync) (now : Int)
    (ticks_to_wait : Nat) : WaitResult :=
  if s.paused_time.isSome then .err .eventSyncPaused
  else
    match EventSync.ticks_since_started s now with
    | .error e => .err e
    | .ok ticks => EventSync.wait_until s now ((ticks + ticks_to_wait) % 2 ^ 64)

/-- lib.rs `EventSync::wait_for_tick` (lines 601-605): `err_if_paused`, then
`wait_for_x_ticks(1)`. -/
def EventSync.wait_for_tick (s : InnerEventSync) (now : Int) : WaitResult :=
  if s.paused_time.isSome then .err .eventSyncPaused
  else EventSync.wait_for_x_ticks s now 1

/-- lib.rs `EventSync::pause` (lines 355-361): records `SystemTime::now()` as
the pause timestamp when running; a no-op when already paused. -/
def EventSync.pause (s : InnerEventSync) (now : Int) : InnerEventSync :=
  if s.paused_time.isNone then { s with paused_time := some now } else s

/-- Result of a mutating operation: `ok` carries the post-state; `err` carries
the error together with the (unchanged) post-state of the early return;
`panicked` models a panic before any write. -/
inductive StepResult where
  | ok (s : InnerEventSync)
  | err (e : TimeError) (s : InnerEventSync)
  | panicked
deriving DecidableEq

/-- lib.rs `EventSync::unpause` (lines 407-418): a no-op when running;
otherwise `time_running = paused_time.duration_since(start_time)?` (an error
leaves the state untouched), then the state is replaced by
`InnerEventSync::from_starting_time(tickrate, time_running)` (which can
panic). -/
def EventSync.unpause (s : InnerEventSync) (now : Int) : StepResult :=
  match s.paused_time with
  | none => .ok s
  | some pt =>
    if pt < s.start_time then .err .systemTimeError s
    else
      match InnerEventSync.from_starting_time s.tickrate (pt - s.start_time).toNat now with
      | none => .panicked
      | some s2 => .ok s2

/-- lib.rs `EventSync::restart` (lines 472-477): resets the start time to now
and clears the pause timestamp. -/
def EventSync.restart (s : InnerEventSync) (now : Int) : InnerEventSync :=
  { start_time := now, tickrate := s.tickrate, paused_time := none }

/-- lib.rs `EventSync::change_tickrate` (lines 520-522): clamps to at least 1. -/
def EventSync.change_tickrate (s : InnerEventSync) (new_tickrate : Nat) :
    InnerEventSync :=
  { s with tickrate := max new_tickrate 1 }

/-- lib.rs `wait_until` takes `&self` and only ever acquires the read lock, so
the state after the call is the state before it, whatever the result. -/
def EventSync.wait_untilStep (s : InnerEventSync) (now : Int)
    (tick_to_wait_for : Nat) : WaitResult × InnerEventSync :=
  (EventSync.wait_until s now tick_to_wait_for, s)

/-- lib.rs `is_paused` takes `&self` and only reads: value plus unchanged
state. -/
def EventSync.is_pausedStep (s : InnerEventSync) : Bool × InnerEventSync :=
  (s.paused_time.isSome, s)

/-- lib.rs `get_tickrate` takes `&self` and only reads: value plus unchanged
state. -/
def EventSync.get_tickrateStep (s : InnerEventSync) : Nat × InnerEventSync :=
  (s.tickrate, s)

/-- The record emitted when lib.rs `InnerEventSync` is serialized: the derived
`Serialize` writes `start_time` verbatim (an absolute `SystemTime`), the
tickrate, and — through the field serializer `pause` (lib.rs lines 97-102) —
`paused_time.unwrap_or(SystemTime::now())`, so the pause-timestamp field is
always present and absolute. -/
structure SerializedEventSync where
  start_time : Int
  tickrate : Nat
  paused_time : Int
deriving DecidableEq

/-- Serialization of lib.rs `InnerEventSync` (derive plus the `pause` field
serializer): a running clock gets `now` as its pause timestamp. -/
def EventSync.serialize (s : InnerEventSync) (now : Int) : SerializedEventSync :=
  { start_time := s.start_time
    tickrate := s.tickrate
    paused_time := s.paused_time.getD now }

/-- Deserialization of lib.rs `InnerEventSync` (the derived `Deserialize`): the
always-present pause timestamp becomes `Some`, so the clock comes back
paused. -/
def EventSync.deserialize (r : SerializedEventSync) : InnerEventSync :=
  { start_time := r.start_time
    tickrate := r.tickrate
    paused_time := some r.paused_time }

namespace StateEnum

/-- The state enum of the newer revision, `src/inner.rs` lines 17-24:
`Running` stores an `Instant` (modelled in nanoseconds), `Paused` stores the
frozen elapsed `Duration`. -/
inductive EventSyncState where
  | running (t : Int)
  | pausedState (d : Nat)
deriving DecidableEq

/-- inner.rs `InnerEventSync` (lines 6-11): state plus tickrate. -/
structure InnerES where
  state : EventSyncState
  tickrate : Nat
deriving DecidableEq

/-- inner.rs `serialize_paused` (lines 66-74): a `Running(t)` state is
serialized as `Paused(t.elapsed())` and a `Paused(d)` state as itself, so the
serialized state is always a plain duration.  `Instant::elapsed` saturates at
zero. -/
def serializeState (st : EventSyncState) (now : Int) : Nat :=
  match st with
  | .running t => (now - t).toNat
  | .pausedState d => d

/-- The full serialized form of inner.rs `InnerEventSync`: the paused duration
and the tickrate — no other field exists in the record. -/
def serializeInner (s : InnerES) (now : Int) : Nat × Nat :=
  (serializeState s.state now, s.tickrate)

/-- Deserialization of the serialized pair: `Running` is marked
`skip_deserializing`, so the state always comes back as `Paused(d)`. -/
def deserializeInner (p : Nat × Nat) : InnerES :=
  { state := .pausedState p.1, tickrate := p.2 }

/-- inner.rs `EventSyncState::is_paused` via `mem::discriminant`
(lines 28-31). -/
def is_pausedSE (s : InnerES) : Bool :=
  match s.state with
  | .running _ => false
  | .pausedState _ => true

/-- inner.rs `time_since_started` (lines 201-206): elapsed time while running,
or the frozen duration while paused. -/
def time_since_startedSE (s : InnerES) (now : Int) : Nat :=
  match s.state with
  | .running t => (now - t).toNat
  | .pausedState d => d

end StateEnum

/-- Claim C3: on a paused clock, each of the time-based operations
`wait_until`, `wait_for_tick`, `wait_for_x_ticks`, `time_since_started`,
`ticks_since_started`, `time_since_last_tick` and `time_until_next_tick`
returns the paused error rather than a value. -/
theorem paused_queries_all_err (s : InnerEventSync) (now : Int) (tick n : Nat)
    (h : EventSync.is_paused s = true) :
    EventSync.wait_until s now tick = .err .eventSyncPaused ∧
    EventSync.wait_for_tick s now = .err .eventSyncPaused ∧
    EventSync.wait_for_x_ticks s now n = .err .eventSyncPaused ∧
    EventSync.time_since_started s now = .error .eventSyncPaused ∧
    EventSync.ticks_since_started s now = .error .eventSyncPaused ∧
    EventSync.time_since_last_tick s now = .error .eventSyncPaused ∧
    EventSync.time_until_next_tick s now = .error .eventSyncPaused := by
  have hp : s.paused_time.isSome = true := h
  simp [EventSync.wait_until, EventSync.wait_for_tick, EventSync.wait_for_x_ticks,
    EventSync.time_since_started, EventSync.ticks_since_started,
    EventSync.time_since_last_tick, EventSync.time_until_next_tick, hp]

/-- Witness for `paused_queries_all_err` at a concrete paused clock. -/
theorem paused_queries_all_err_witness :
    EventSync.is_paused ⟨0, 10, some 0⟩ = true ∧
    EventSync.wait_until ⟨0, 10, some 0⟩ 1 3 = .err .eventSyncPaused :=
  ⟨by decide, (paused_queries_all_err ⟨0, 10, some 0⟩ 1 3 2 (by decide)).1⟩

/-- Claim C10: `is_paused` and `get_tickrate` are total reads — they return a
value for every clock (paused or not), mutate nothing, and keep answering even
in the paused state where the time-based queries fail. -/
theorem read_queries_total (s : InnerEventSync) (now : Int) :
    (EventSync.is_pausedStep s).2 = s ∧
    (EventSync.get_tickrateStep s).2 = s ∧
    (EventSync.is_pausedStep s).1 = EventSync.is_paused s ∧
    (EventSync.get_tickrateStep s).1 = EventSync.get_tickrate s ∧
    (EventSync.is_paused s = true →
      EventSync.time_since_started s now = .error .eventSyncPaused ∧
      (EventSync.get_tickrateStep s).1 = s.tickrate) := by
  refine ⟨rfl, rfl, rfl, rfl, fun h => ⟨?_, rfl⟩⟩
  have hp : s.paused_time.isSome = true := h
  simp [EventSync.time_since_started, hp]

/-- Witness for `read_queries_total` at a concrete paused clock. -/
theorem read_queries_total_witness :
    EventSync.is_paused ⟨0, 10, some 0⟩ = true ∧
    EventSync.time_since_started ⟨0, 10, some 0⟩ 0 = .error .eventSyncPaused :=
  ⟨by decide, ((read_queries_total ⟨0, 10, some 0⟩ 0).2.2.2.2 (by decide)).1⟩

/-- Claim C8: error atomicity — for every clock (running or paused) and every
target tick, `wait_until` leaves the state exactly as it was, in particular
whenever it returns an error; and whenever `unpause` returns an error, the
clock remains paused with its frozen pause data unchanged, so it can be
retried. -/
theorem error_atomicity (s : InnerEventSync) (now : Int) (tick : Nat) :
    (EventSync.wait_untilStep s now tick).2 = s ∧
    (∀ e s2, EventSync.unpause s now = .err e s2 →
      s2 = s ∧ s2.paused_time = s.paused_time ∧ EventSync.is_paused s2 = true) := by
  refine ⟨rfl, fun e s2 h => ?_⟩
  have hmain : s2 = s ∧ s.paused_time.isSome = true := by
    simp only [EventSync.unpause] at h
    cases hs : s.paused_time with
    | none => rw [hs] at h; simp at h
    | some pt =>
      rw [hs] at h
      dsimp only at h
      by_cases hlt : pt < s.start_time
      · rw [if_pos hlt] at h
        injection h with h1 h2
        exact ⟨h2.symm, by simp [hs]⟩
      · rw [if_neg hlt] at h
        cases hft : InnerEventSync.from_starting_time s.tickrate
            (pt - s.start_time).toNat now with
        | none => rw [hft] at h; simp at h
        | some s3 => rw [hft] at h; simp at h
  obtain ⟨h2, hp⟩ := hmain
  subst h2
  exact ⟨rfl, rfl, hp⟩

/-- Witness for `error_atomicity`, exercising both halves: a running clock
whose `wait_until` fails with the already-past error is left unchanged, and a
paused clock whose pause timestamp lies before its start time makes `unpause`
fail and stay paused unchanged. -/
theorem error_atomicity_witness :
    EventSync.wait_until ⟨0, 10, none⟩ 5000000 0 = .err .thatTimeHasAlreadyHappened ∧
    (EventSync.wait_untilStep ⟨0, 10, none⟩ 5000000 0).2 = ⟨0, 10, none⟩ ∧
    EventSync.unpause ⟨10, 5, some 0⟩ 0 = .err .systemTimeError ⟨10, 5, some 0⟩ ∧
    EventSync.is_paused ⟨10, 5, some 0⟩ = true :=
  ⟨by decide,
    (error_atomicity ⟨0, 10, none⟩ 5000000 0).1,
    by decide,
    ((error_atomicity ⟨10, 5, some 0⟩ 0 1).2 .systemTimeError ⟨10, 5, some 0⟩
      (by decide)).2.2⟩

/-- Tick-rate invariant carried through a mutating step, whatever its outcome. -/
def stepTickrateGe1 : StepResult → Prop
  | .ok s => 1 ≤ s.tickrate
  | .err _ s => 1 ≤ s.tickrate
  | .panicked => True

/-- Tick-rate invariant of a possibly-panicking constructor result. -/
def optTickrateGe1 : Option InnerEventSync → Prop
  | some s => 1 ≤ s.tickrate
  | none => True

/-- Claim C9: after construction and after every operation the stored tick rate
is at least 1, queries leave the state untouched, and the clock is in exactly
one of the running / paused states. -/
theorem clock_invariant (s : InnerEventSync) (r t d n : Nat) (p : Bool)
    (st now now2 : Int) (h : 1 ≤ s.tickrate) :
    1 ≤ (InnerEventSync.new t st p now).tickrate ∧
    1 ≤ (EventSync.new t now).tickrate ∧
    1 ≤ (EventSync.new_paused t now).tickrate ∧
    optTickrateGe1 (EventSync.from_starting_time t d p now) ∧
    optTickrateGe1 (EventSync.from_starting_tick t n p now) ∧
    1 ≤ (EventSync.pause s now2).tickrate ∧
    stepTickrateGe1 (EventSync.unpause s now2) ∧
    1 ≤ (EventSync.restart s now2).tickrate ∧
    1 ≤ (EventSync.change_tickrate s r).tickrate ∧
    (EventSync.wait_untilStep s now2 n).2 = s ∧
    (EventSync.is_paused s = true ∨ EventSync.is_paused s = false) ∧
    ¬(s.paused_time.isSome = true ∧ s.paused_time.isNone = true) := by
  have hmax : ∀ m : Nat, 1 ≤ max m 1 := fun m => le_max_right m 1
  refine ⟨hmax t, hmax t, hmax t, ?_, ?_, ?_, ?_, h, hmax r, rfl, ?_, ?_⟩
  · unfold EventSync.from_starting_time
    cases systemTimeSub now d with
    | none => exact trivial
    | some st2 => exact hmax t
  · unfold EventSync.from_starting_tick
    dsimp only
    cases systemTimeSub now (((n * t) % 2 ^ 32) * 1000000) with
    | none => exact trivial
    | some st2 => exact hmax t
  · unfold EventSync.pause
    by_cases hn : s.paused_time.isNone
    · rw [if_pos hn]; exact h
    · rw [if_neg hn]; exact h
  · unfold EventSync.unpause
    cases s.paused_time with
    | none => exact h
    | some pt =>
      dsimp only
      by_cases hlt : pt < s.start_time
      · rw [if_pos hlt]; exact h
      · rw [if_neg hlt]
        unfold InnerEventSync.from_starting_time
        cases systemTimeSub now2 (pt - s.start_time).toNat with
        | none => exact trivial
        | some st2 => exact hmax s.tickrate
  · cases hps : s.paused_time <;> simp [EventSync.is_paused, hps]
  · cases hps : s.paused_time <;> simp [hps]

/-- Witness for `clock_invariant` at a concrete running clock. -/
theorem clock_invariant_witness :
    1 ≤ (⟨0, 10, none⟩ : InnerEventSync).tickrate ∧
    stepTickrateGe1 (EventSync.unpause ⟨0, 10, none⟩ 0) :=
  ⟨by decide,
    (clock_invariant ⟨0, 10, none⟩ 3 7 5 2 true 0 0 0 (by decide)).2.2.2.2.2.2.1⟩

/-- Claim C1 counterexample: in the shipped lib.rs revision, two running clocks
with the same tick rate and the same elapsed duration at the moment of
serialization serialize to different forms, and the difference is the absolute
`start_time` wall-clock timestamp the serialized record carries — so the
serialized form does not consist of only the tick rate and the accumulated
elapsed duration. -/
theorem serialize_absolute_start_cex :
    EventSync.get_tickrate ⟨0, 5, none⟩ = EventSync.get_tickrate ⟨100, 5, none⟩ ∧
    EventSync.time_since_started ⟨0, 5, none⟩ 10 =
      EventSync.time_since_started ⟨100, 5, none⟩ 110 ∧
    EventSync.time_since_started ⟨0, 5, none⟩ 10 = .ok 10 ∧
    EventSync.serialize ⟨0, 5, none⟩ 10 ≠ EventSync.serialize ⟨100, 5, none⟩ 110 ∧
    (EventSync.serialize ⟨0, 5, none⟩ 10).start_time = 0 ∧
    (EventSync.serialize ⟨100, 5, none⟩ 110).start_time = 100 := by decide

/-- Claim C1 as amended: serialization always yields a form that deserializes
to a paused clock, computed at the moment of serialization.  In the state-enum
revision (inner.rs) the serialized form holds only the tick rate and the
elapsed duration, with no absolute reading.  In the lib.rs revision the
serialized record keeps the absolute `start_time` and a pause timestamp — the
frozen one if paused, otherwise the serialization-time reading — so the elapsed
duration is represented as the difference of two absolute timestamps rather
than stored directly. -/
theorem serialize_paused_representation (s : InnerEventSync)
    (t : StateEnum.InnerES) (now : Int) :
    EventSync.is_paused (EventSync.deserialize (EventSync.serialize s now)) = true ∧
    (EventSync.serialize s now).start_time = s.start_time ∧
    (s.paused_time = none → (EventSync.serialize s now).paused_time = now) ∧
    (∀ d, s.paused_time = some d → (EventSync.serialize s now).paused_time = d) ∧
    StateEnum.serializeInner t now =
      (StateEnum.time_since_startedSE t now, t.tickrate) ∧
    StateEnum.is_pausedSE
      (StateEnum.deserializeInner (StateEnum.serializeInner t now)) = true := by
  refine ⟨rfl, rfl, fun hp => ?_, fun d hd => ?_, ?_, rfl⟩
  · simp [EventSync.serialize, hp]
  · simp [EventSync.serialize, hd]
  · cases t with
    | mk st tr => cases st <;> rfl

/-- Witness for `serialize_paused_representation`: a running clock serialized
at time 10 records 10 as its pause timestamp. -/
theorem serialize_paused_representation_witness :
    (⟨0, 5, none⟩ : InnerEventSync).paused_time = none ∧
    (EventSync.serialize ⟨0, 5, none⟩ 10).paused_time = 10 :=
  ⟨rfl,
    (serialize_paused_representation ⟨0, 5, none⟩ ⟨.running 0, 5⟩ 10).2.2.1 rfl⟩

/-- A successful `time_since_started` pins down the pause status, the clock
ordering, and the elapsed value. -/
theorem time_since_started_ok (s : InnerEventSync) (now : Int) (e : Nat)
    (he : EventSync.time_since_started s now = .ok e) :
    s.paused_time.isSome = false ∧ ¬now < s.start_time ∧
      (now - s.start_time).toNat = e := by
  unfold EventSync.time_since_started at he
  by_cases hp : s.paused_time.isSome
  · rw [if_pos hp] at he; simp at he
  · rw [if_neg hp] at he
    by_cases hn : now < s.start_time
    · rw [if_pos hn] at he; simp at he
    · rw [if_neg hn] at he
      injection he with he2
      exact ⟨by simpa using hp, hn, he2⟩

/-- A successful `ticks_since_started` pins down the pause status, the clock
ordering, and the tick count. -/
theorem ticks_since_started_ok (s : InnerEventSync) (now : Int) (k : Nat)
    (hk : EventSync.ticks_since_started s now = .ok k) :
    s.paused_time.isSome = false ∧ ¬now < s.start_time ∧
      (((now - s.start_time).toNat / 1000000) % 2 ^ 64) / s.tickrate = k := by
  unfold EventSync.ticks_since_started at hk
  by_cases hp : s.paused_time.isSome
  · rw [if_pos hp] at hk; simp at hk
  · rw [if_neg hp] at hk
    by_cases hn : now < s.start_time
    · rw [if_pos hn] at hk; simp at hk
    · rw [if_neg hn] at hk
      injection hk with hk2
      exact ⟨by simpa using hp, hn, hk2⟩

/-- Core evaluation of `wait_until` on a running clock whose elapsed
milliseconds and target-times-tickrate product both stay below `2^64` (so the
machine arithmetic does not wrap). -/
theorem wait_until_core (s : InnerEventSync) (now : Int) (tick k e : Nat)
    (hk : EventSync.ticks_since_started s now = .ok k)
    (he : EventSync.time_since_started s now = .ok e)
    (ht : 1 ≤ s.tickrate) (hms : e / 1000000 < 2 ^ 64)
    (hmul : tick * s.tickrate < 2 ^ 64) :
    EventSync.wait_until s now tick =
      if k < tick then .sleep (tick * s.tickrate * 1000000 - e)
      else .err .thatTimeHasAlreadyHappened := by
  obtain ⟨hp, hnlt, hee⟩ := time_since_started_ok s now e he
  obtain ⟨-, -, hkk⟩ := ticks_since_started_ok s now k hk
  rw [hee, Nat.mod_eq_of_lt hms] at hkk
  unfold EventSync.wait_until
  rw [if_neg (by simp [hp]), hk]
  dsimp only
  rw [he]
  dsimp only
  rw [Nat.mod_eq_of_lt hmul]
  by_cases hkt : k < tick
  · rw [if_pos hkt, if_pos hkt]
    have h1 : e / 1000000 < tick * s.tickrate := by
      rw [← hkk] at hkt
      exact (Nat.div_lt_iff_lt_mul ht).mp hkt
    have h2 : e < tick * s.tickrate * 1000000 :=
      (Nat.div_lt_iff_lt_mul (by norm_num)).mp h1
    rw [if_pos (le_of_lt h2)]
  · rw [if_neg hkt, if_neg hkt]

/-- Claim C2 counterexample: with tickrate 4 and target tick `2^62`, the `u64`
product `tick * tickrate` wraps to 0, so a fresh clock (0 elapsed, 0 ticks)
sleeps for 0 nanoseconds instead of the claimed
`T * tick_rate_ms - time_since_started()`. -/
theorem wait_until_overflow_cex :
    EventSync.is_paused ⟨0, 4, none⟩ = false ∧
    EventSync.ticks_since_started ⟨0, 4, none⟩ 0 = .ok 0 ∧
    EventSync.time_since_started ⟨0, 4, none⟩ 0 = .ok 0 ∧
    EventSync.wait_until ⟨0, 4, none⟩ 0 (2 ^ 62) = .sleep 0 ∧
    EventSync.wait_until ⟨0, 4, none⟩ 0 (2 ^ 62) ≠
      .sleep (2 ^ 62 * 4 * 1000000 - 0) := by decide

/-- Claim C2 as amended: on a running clock whose time queries succeed (the
system clock has not been reversed), with elapsed milliseconds and
`T * tick_rate_ms` both below `2^64` so the `u64` arithmetic does not wrap,
`wait_until(T)` fails with the already-past error iff `T` is at or before the
current tick, and otherwise sleeps exactly
`T * tick_rate_ms - time_since_started()` and returns success. -/
theorem wait_until_spec (s : InnerEventSync) (now : Int) (tick k e : Nat)
    (hk : EventSync.ticks_since_started s now = .ok k)
    (he : EventSync.time_since_started s now = .ok e)
    (ht : 1 ≤ s.tickrate)
    (hms : e / 1000000 < 2 ^ 64)
    (hmul : tick * s.tickrate < 2 ^ 64) :
    (EventSync.wait_until s now tick = .err .thatTimeHasAlreadyHappened ↔
      tick ≤ k) ∧
    (k < tick →
      EventSync.wait_until s now tick = .sleep (tick * s.tickrate * 1000000 - e)) := by
  have hcore := wait_until_core s now tick k e hk he ht hms hmul
  constructor
  · rw [hcore]
    by_cases hkt : k < tick
    · rw [if_pos hkt]
      constructor
      · intro habs; simp at habs
      · intro hle; exact absurd hle (by omega)
    · rw [if_neg hkt]
      exact ⟨fun _ => by omega, fun _ => rfl⟩
  · intro hkt
    rw [hcore, if_pos hkt]

/-- Witness for `wait_until_spec`: tickrate 10, 5 ms elapsed, target tick 2
sleeps 15 ms. -/
theorem wait_until_spec_witness :
    EventSync.ticks_since_started ⟨0, 10, none⟩ 5000000 = .ok 0 ∧
    EventSync.wait_until ⟨0, 10, none⟩ 5000000 2 = .sleep 15000000 :=
  ⟨by decide, by
    have h := (wait_until_spec ⟨0, 10, none⟩ 5000000 2 0 5000000
      (by decide) (by decide) (by decide) (by decide) (by decide)).2 (by decide)
    exact h⟩

/-- Claim C6 counterexample: `wait_for_x_ticks(0)` on a fresh running clock at
tick 0 resolves to `wait_until(0)`, which returns the already-past error
rather than success. -/
theorem wait_for_zero_ticks_cex :
    EventSync.is_paused ⟨0, 10, none⟩ = false ∧
    EventSync.ticks_since_started ⟨0, 10, none⟩ 0 = .ok 0 ∧
    EventSync.wait_for_x_ticks ⟨0, 10, none⟩ 0 0 =
      .err .thatTimeHasAlreadyHappened := by decide

/-- Claim C6 as amended: for `n ≥ 1` on a running clock currently at tick `k`
whose time queries succeed, with `(k + n) * tick_rate_ms` and the elapsed
milliseconds below `2^64`, `wait_for_x_ticks(n)` behaves as
`wait_until(ticks_since_started() + n)` and sleeps `n * tick_rate_ms` minus
the fraction of the current tick already elapsed. -/
theorem wait_for_x_ticks_spec (s : InnerEventSync) (now : Int) (n k e : Nat)
    (hk : EventSync.ticks_since_started s now = .ok k)
    (he : EventSync.time_since_started s now = .ok e)
    (ht : 1 ≤ s.tickrate) (hn : 1 ≤ n)
    (hms : e / 1000000 < 2 ^ 64)
    (hmul : (k + n) * s.tickrate < 2 ^ 64) :
    EventSync.wait_for_x_ticks s now n = EventSync.wait_until s now (k + n) ∧
    EventSync.wait_for_x_ticks s now n =
      .sleep (n * s.tickrate * 1000000 - (e - k * s.tickrate * 1000000)) := by
  obtain ⟨hp, hnlt, hee⟩ := time_since_started_ok s now e he
  obtain ⟨-, -, hkk⟩ := ticks_since_started_ok s now k hk
  rw [hee, Nat.mod_eq_of_lt hms] at hkk
  have hkn : k + n < 2 ^ 64 := by
    calc k + n = (k + n) * 1 := (Nat.mul_one _).symm
    _ ≤ (k + n) * s.tickrate := Nat.mul_le_mul_left _ ht
    _ < 2 ^ 64 := hmul
  have hfx : EventSync.wait_for_x_ticks s now n =
      EventSync.wait_until s now (k + n) := by
    unfold EventSync.wait_for_x_ticks
    rw [if_neg (by simp [hp]), hk]
    dsimp only
    rw [Nat.mod_eq_of_lt hkn]
  refine ⟨hfx, ?_⟩
  rw [hfx, wait_until_core s now (k + n) k e hk he ht hms hmul,
    if_pos (by omega)]
  have hA : k * s.tickrate * 1000000 ≤ e := by
    have h1 : k * s.tickrate ≤ e / 1000000 := by
      rw [← hkk]; exact Nat.div_mul_le_self _ _
    calc k * s.tickrate * 1000000 ≤ (e / 1000000) * 1000000 :=
      Nat.mul_le_mul_right _ h1
    _ ≤ e := Nat.div_mul_le_self _ _
  have hexp : (k + n) * s.tickrate * 1000000 =
      k * s.tickrate * 1000000 + n * s.tickrate * 1000000 := by ring
  have harith : ∀ a b c : Nat, a ≤ c → a + b - c = b - (c - a) := by
    intro a b c hac; omega
  rw [hexp, harith _ _ _ hA]

/-- Witness for `wait_for_x_ticks_spec`: tickrate 10, 5 ms into tick 0,
waiting 3 ticks sleeps 25 ms. -/
theorem wait_for_x_ticks_spec_witness :
    EventSync.ticks_since_started ⟨0, 10, none⟩ 5000000 = .ok 0 ∧
    EventSync.wait_for_x_ticks ⟨0, 10, none⟩ 5000000 3 = .sleep 25000000 :=
  ⟨by decide, by
    have h := (wait_for_x_ticks_spec ⟨0, 10, none⟩ 5000000 3 0 5000000
      (by decide) (by decide) (by decide) (by decide) (by decide) (by decide)).2
    exact h⟩

/-- Claim C7 counterexample: `from_starting_tick` computes the starting offset
with the raw input tick rate, before clamping.  With input tick rate 0 and
starting tick 3, the offset is `3 * 0 = 0` ms while the stored rate is clamped
to 1, so the new clock reports 0 ticks, not 3. -/
theorem from_starting_tick_zero_rate_cex :
    EventSync.from_starting_tick 0 3 false 0 = some ⟨0, 1, none⟩ ∧
    EventSync.ticks_since_started ⟨0, 1, none⟩ 0 = .ok 0 ∧
    EventSync.ticks_since_started ⟨0, 1, none⟩ 0 ≠ .ok 3 := by decide

/-- Claim C7 as amended: for every tick rate at least 1 with
`starting_tick * tick_rate` below `2^32` (no `u32` wrap) and a current time at
or after the epoch, `from_starting_tick(rate, n, false)` succeeds and the new
clock reports `ticks_since_started() = n` immediately after construction. -/
theorem from_starting_tick_spec (t n : Nat) (now : Int)
    (ht : 1 ≤ t) (hov : n * t < 2 ^ 32) (h0 : 0 ≤ now) :
    ∃ s, EventSync.from_starting_tick t n false now = some s ∧
      EventSync.ticks_since_started s now = .ok n := by
  have hmod : (n * t) % 2 ^ 32 = n * t := Nat.mod_eq_of_lt hov
  have hsub : sysTimeMin ≤ now - ((n * t * 1000000 : Nat) : Int) := by
    have hp : n * t * 1000000 < 2 ^ 32 * 1000000 :=
      (Nat.mul_lt_mul_right (by norm_num)).mpr hov
    generalize n * t * 1000000 = p at hp ⊢
    unfold sysTimeMin
    omega
  have hnew : InnerEventSync.new t (now - ((n * t * 1000000 : Nat) : Int)) false now =
      ⟨now - ((n * t * 1000000 : Nat) : Int), t, none⟩ := by
    unfold InnerEventSync.new
    simp [Nat.max_eq_left ht]
  have hform : EventSync.from_starting_tick t n false now =
      some (⟨now - ((n * t * 1000000 : Nat) : Int), t, none⟩ : InnerEventSync) := by
    unfold EventSync.from_starting_tick systemTimeSub
    dsimp only
    rw [hmod, if_pos hsub]
    dsimp only [Option.map]
    rw [hnew]
  refine ⟨_, hform, ?_⟩
  unfold EventSync.ticks_since_started
  have hlt : ∀ p : Nat, ¬now < now - (p : Int) := by intro p; omega
  have htn : ∀ p : Nat, (now - (now - (p : Int))).toNat = p := by intro p; omega
  rw [if_neg (by simp), if_neg (hlt _), htn _]
  have hd1 : n * t * 1000000 / 1000000 = n * t :=
    Nat.mul_div_cancel _ (by norm_num)
  have hd2 : (n * t) % 2 ^ 64 = n * t :=
    Nat.mod_eq_of_lt (lt_of_lt_of_le hov (by norm_num))
  have hd3 : n * t / t = n := Nat.mul_div_cancel _ ht
  rw [hd1, hd2]
  dsimp only
  rw [hd3]

/-- Witness for `from_starting_tick_spec` at tick rate 10, starting tick 3. -/
theorem from_starting_tick_spec_witness :
    (1 ≤ 10 ∧ 3 * 10 < 2 ^ 32 ∧ (0 : Int) ≤ 0) ∧
    ∃ s, EventSync.from_starting_tick 10 3 false 0 = some s ∧
      EventSync.ticks_since_started s 0 = .ok 3 :=
  ⟨⟨by decide, by decide, by decide⟩,
    from_starting_tick_spec 10 3 0 (by decide) (by decide) (by decide)⟩

/-- Claim C4 counterexample: `from_starting_time` with the maximal `Duration`
panics, because `SystemTime::now() - starting_time` is not representable (it
falls below the platform minimum).  The time reading used is a realistic 2025
epoch instant. -/
theorem from_starting_time_unrepresentable_cex :
    EventSync.from_starting_time 10 durationMax false 1760000000000000000 =
      none := by decide

/-- Claim C4 as amended: `new` and `new_paused` always succeed;
`from_starting_tick` succeeds for any starting tick whenever the current time
is at or after the epoch (its `u32` offset product wraps rather than failing);
`from_starting_time` succeeds exactly when `now - duration` stays within the
representable clock range, and panics otherwise.  In every successful case the
stored tick rate is `max(input, 1)`. -/
theorem constructors_spec (t d n : Nat) (p : Bool) (now : Int) (h0 : 0 ≤ now) :
    (EventSync.new t now).tickrate = max t 1 ∧
    (EventSync.new_paused t now).tickrate = max t 1 ∧
    (∃ s, EventSync.from_starting_tick t n p now = some s ∧
      s.tickrate = max t 1) ∧
    ((EventSync.from_starting_time t d p now).isSome ↔
      sysTimeMin ≤ now - (d : Int)) ∧
    (∀ s, EventSync.from_starting_time t d p now = some s →
      s.tickrate = max t 1) := by
  refine ⟨rfl, rfl, ?_, ?_, ?_⟩
  · have hm : (n * t) % 2 ^ 32 < 2 ^ 32 := Nat.mod_lt _ (by norm_num)
    have hsub : sysTimeMin ≤ now - ((((n * t) % 2 ^ 32) * 1000000 : Nat) : Int) := by
      have hp2 : ((n * t) % 2 ^ 32) * 1000000 < 2 ^ 32 * 1000000 :=
        (Nat.mul_lt_mul_right (by norm_num)).mpr hm
      generalize ((n * t) % 2 ^ 32) * 1000000 = q at hp2 ⊢
      unfold sysTimeMin
      omega
    refine ⟨InnerEventSync.new t (now - ((((n * t) % 2 ^ 32) * 1000000 : Nat) : Int)) p now,
      ?_, rfl⟩
    unfold EventSync.from_starting_tick systemTimeSub
    dsimp only
    rw [if_pos hsub]
    rfl
  · unfold EventSync.from_starting_time systemTimeSub
    by_cases hc : sysTimeMin ≤ now - (d : Int)
    · rw [if_pos hc]; simp [hc]
    · rw [if_neg hc]; simp [hc]
  · intro s hs
    unfold EventSync.from_starting_time systemTimeSub at hs
    by_cases hc : sysTimeMin ≤ now - (d : Int)
    · rw [if_pos hc] at hs
      dsimp only [Option.map] at hs
      injection hs with hs2
      rw [← hs2]
      rfl
    · rw [if_neg hc] at hs
      simp at hs

/-- Witness for `constructors_spec`: tick rate 0 is clamped to 1 by `new`. -/
theorem constructors_spec_witness :
    (0 : Int) ≤ 0 ∧ (EventSync.new 0 0).tickrate = max 0 1 :=
  ⟨by decide, (constructors_spec 0 5 3 false 0 (by decide)).1⟩

/-- Claim C5: serializing a running clock that has completed `k` ticks yields a
form that deserializes to a paused clock; after `unpause` the clock again
reports `ticks_since_started() = k`, however much real time passed between
serialization (`now1`) and unpausing (`now2`). -/
theorem serialize_round_trip (s : InnerEventSync) (now1 now2 : Int) (k : Nat)
    (hrun : s.paused_time = none) (ht : 1 ≤ s.tickrate)
    (hlo : sysTimeMin ≤ s.start_time) (h1 : s.start_time ≤ now1)
    (h2 : now1 ≤ now2)
    (hk : EventSync.ticks_since_started s now1 = .ok k) :
    EventSync.is_paused (EventSync.deserialize (EventSync.serialize s now1)) = true ∧
    ∃ s2,
      EventSync.unpause (EventSync.deserialize (EventSync.serialize s now1)) now2 =
        .ok s2 ∧
      EventSync.ticks_since_started s2 now2 = .ok k := by
  obtain ⟨-, -, hkk⟩ := ticks_since_started_ok s now1 k hk
  have hd : EventSync.deserialize (EventSync.serialize s now1) =
      ⟨s.start_time, s.tickrate, some now1⟩ := by
    unfold EventSync.serialize EventSync.deserialize
    rw [hrun]
    rfl
  refine ⟨by rw [hd]; rfl, ?_⟩
  have hsub : sysTimeMin ≤ now2 - (((now1 - s.start_time).toNat : Nat) : Int) := by
    omega
  have hs2 : EventSync.unpause (EventSync.deserialize (EventSync.serialize s now1)) now2 =
      .ok ⟨now2 - (((now1 - s.start_time).toNat : Nat) : Int), s.tickrate, none⟩ := by
    rw [hd]
    unfold EventSync.unpause
    dsimp only
    rw [if_neg (show ¬now1 < s.start_time by omega)]
    unfold InnerEventSync.from_starting_time systemTimeSub
    rw [if_pos hsub]
    dsimp only [Option.map]
    unfold InnerEventSync.new
    simp [Nat.max_eq_left ht]
  refine ⟨_, hs2, ?_⟩
  unfold EventSync.ticks_since_started
  have hlt2 : ¬now2 < now2 - (((now1 - s.start_time).toNat : Nat) : Int) := by omega
  have htn2 : (now2 - (now2 - (((now1 - s.start_time).toNat : Nat) : Int))).toNat =
      (now1 - s.start_time).toNat := by omega
  rw [if_neg (by simp), if_neg hlt2, htn2, hkk]

/-- Witness for `serialize_round_trip`: a clock with tick rate 10 serialized
25 ms in (2 ticks) and unpaused much later still reports 2 ticks. -/
theorem serialize_round_trip_witness :
    EventSync.ticks_since_started ⟨0, 10, none⟩ 25000000 = .ok 2 ∧
    (EventSync.is_paused
        (EventSync.deserialize (EventSync.serialize ⟨0, 10, none⟩ 25000000)) = true ∧
      ∃ s2,
        EventSync.unpause
            (EventSync.deserialize (EventSync.serialize ⟨0, 10, none⟩ 25000000))
            999999999999 = .ok s2 ∧
        EventSync.ticks_since_started s2 999999999999 = .ok 2) :=
  ⟨by decide,
    serialize_round_trip ⟨0, 10, none⟩ 25000000 999999999999 2 rfl (by decide)
      (by decide) (by decide) (by decide) (by decide)⟩
